import Mathlib

/-!
Verification of the response-interpretation and action-execution engine of
`olacli.py`.

Texts (Python `str` values) are modelled as `List Char`.  The regular
expressions of the source are translated into explicit leftmost-match
scanning functions with the same semantics (lazy groups, `re.DOTALL`
where the source uses it).  External collaborators (the Ollama backend,
the process runner, the web fetcher, the terminal and the filesystem)
are modelled as oracle fields of an `Env` record, exactly at the
interface the source calls them.  Side effects are recorded as an event
trace so that frame and temporal properties can be stated.
-/

set_option maxRecDepth 40000

namespace Olacli

/-- Python strings are modelled as lists of characters. -/
abbrev Str := List Char

/-- Convert a Lean string literal to the character-list model. -/
def str (s : String) : Str := s.toList

/-- The backquote character (code point 96). -/
def btick : Char := Char.ofNat 96

/-- The single-quote character (code point 39). -/
def quoteC : Char := Char.ofNat 39

/-- Python `\s` / `str.strip()` whitespace, ASCII range:
space, tab, newline, carriage return, vertical tab, form feed. -/
def isPySpace (c : Char) : Bool :=
  c = ' ' || c = '\t' || c = '\n' || c = '\r' || c = Char.ofNat 11 || c = Char.ofNat 12

/-- Python `str.strip()`: drop whitespace from both ends. -/
def pyStrip (l : Str) : Str :=
  ((l.dropWhile isPySpace).reverse.dropWhile isPySpace).reverse

/-- Python `str.lower()` (ASCII behaviour). -/
def pyLower (l : Str) : Str := l.map Char.toLower

/-- `startsWith p l` holds when `p` is a literal prefix of `l`. -/
def startsWith : Str → Str → Bool
  | [], _ => true
  | _ :: _, [] => false
  | p :: ps, c :: cs => if p = c then startsWith ps cs else false

/-- Split `l` at the first (leftmost) occurrence of the literal pattern
`pat`: returns the part before the occurrence and the part after it.
This is the leftmost-match rule of `re.search` for a literal. -/
def splitOnFirst (pat : Str) : Str → Option (Str × Str)
  | [] => if startsWith pat [] then some ([], []) else none
  | c :: rest =>
    if startsWith pat (c :: rest) then some ([], List.drop pat.length (c :: rest))
    else
      match splitOnFirst pat rest with
      | some (pre, post) => some (c :: pre, post)
      | none => none

/-- `containsSub pat l` holds when `pat` occurs somewhere in `l`. -/
def containsSub (pat l : Str) : Bool := (splitOnFirst pat l).isSome

/-- The `filename: (.*?)\n` search of `extract_code_block`
(olacli.py line 54-55).  The lazy group without `re.DOTALL` captures the
text between the first `filename: ` occurrence and the next newline; the
match needs that newline to exist (if the first occurrence of
`filename: ` has no newline after it, no later occurrence has one
either, so the whole search fails, exactly as in the regex). -/
def extract_filename (text : Str) : Option Str :=
  match splitOnFirst (str "filename: ") text with
  | some (_, after) =>
    match splitOnFirst (str "\n") after with
    | some (g, _) => some g
    | none => none
  | none => none

/-- The part of the fence regex ` ```(.*?)\n(.*?)``` ` (with `re.DOTALL`)
after an opening ` ``` ` has been consumed: the lazy first group runs to
the first newline, and the lazy second group runs to the nearest closing
fence after that newline.  (If no closing fence follows the first
newline then none follows any later newline, so taking the first newline
is exactly the regex backtracking behaviour.) -/
def fenceAfter (rest : Str) : Option (Str × Str) :=
  match splitOnFirst (str "\n") rest with
  | some (lang, afterNl) =>
    match splitOnFirst (str "```") afterNl with
    | some (body, _) => some (lang, body)
    | none => none
  | none => none

/-- Leftmost match of ` ```(.*?)\n(.*?)``` ` with `re.DOTALL`
(olacli.py line 56): scan for an opening ` ``` ` whose continuation
completes the pattern; on failure resume the scan one character later,
as the regex engine does. -/
def code_match : Str → Option (Str × Str)
  | [] => none
  | c :: rest =>
    if startsWith (str "```") (c :: rest) then
      match fenceAfter (List.drop 3 (c :: rest)) with
      | some r => some r
      | none => code_match rest
    else code_match rest

/-- `extract_code_block` (olacli.py lines 52-61).  Returns the Python
triple `(filename, language, code)`: the stripped filename group when a
`filename: ...` line exists, and the stripped-lowered language tag plus
stripped body when a fenced block exists. -/
def extract_code_block (response_text : Str) : Option Str × Option Str × Option Str :=
  let filename := (extract_filename response_text).map pyStrip
  match code_match response_text with
  | some (lang, body) => (filename, some (pyLower (pyStrip lang)), some (pyStrip body))
  | none => (filename, none, none)

/-- Characters allowed inside the URL of the tool directive:
the regex class `[^\s\]]`. -/
def isUrlChar (c : Char) : Bool := !(isPySpace c) && !(c = ']')

/-- One scheme alternative of `https?://[^\s\]]+`: match the literal
scheme, then a nonempty greedy run of URL characters. -/
def urlTail (rest1 : Str) (scheme : Str) : Option Str :=
  if startsWith scheme rest1 then
    let run := List.takeWhile isUrlChar (List.drop scheme.length rest1)
    if run.isEmpty then none else some (scheme ++ run)
  else none

/-- The part of the tool regex after the `[TOOL_WEB]` literal:
`\s*(https?://[^\s\]]+)`.  The greedy `\s*` always ends at the first
non-space character (a shorter run would have to continue with a space,
which cannot start `http`), and `https?` is an exclusive alternative. -/
def urlAfter (rest : Str) : Option Str :=
  let rest1 := List.dropWhile isPySpace rest
  match urlTail rest1 (str "https://") with
  | some u => some u
  | none => urlTail rest1 (str "http://")

/-- Leftmost match of `\[TOOL_WEB\]\s*(https?://[^\s\]]+)`
(olacli.py line 96): scan for the `[TOOL_WEB]` literal; when its
continuation fails to produce a URL, the engine resumes one character
later. -/
def tool_match : Str → Option Str
  | [] => none
  | c :: rest =>
    if startsWith (str "[TOOL_WEB]") (c :: rest) then
      match urlAfter (List.drop (str "[TOOL_WEB]").length (c :: rest)) with
      | some u => some u
      | none => tool_match rest
    else tool_match rest

/-- The typed Action of the spec's data model (§3). -/
inductive Action where
  | webTool (url : Str)
  | shellCommand (script : Str)
  | fileArtifact (filename : Option Str) (language : Str) (code : Str)
  | none
deriving DecidableEq, Repr

/-- The pure response classifier: the decision structure of
`handle_response` (olacli.py lines 96-131) with the side effects left
out.  The tool directive is checked first; a falsy (absent or empty)
code body yields no action; a `bash`/`sh`/`shell` tag yields a shell
command; any other fence yields a file artifact. -/
def classify (text : Str) : Action :=
  match tool_match text with
  | some url => Action.webTool url
  | Option.none =>
    match extract_code_block text with
    | (filename, some language, some code) =>
      if code = [] then Action.none
      else if language = str "bash" ∨ language = str "sh" ∨ language = str "shell" then
        Action.shellCommand code
      else Action.fileArtifact filename language code
    | (_, _, _) => Action.none

/-- A role-tagged message of the conversation history. -/
structure Message where
  role : Str
  content : Str
deriving DecidableEq, Repr

/-- Outcome of `subprocess.run(cmd, shell=True, check=True,
capture_output=True, text=True)`: normal completion with captured
stdout, a `CalledProcessError` with captured stderr, or any other
exception (the bare `except Exception` branch). -/
inductive RunResult where
  | ok (stdout : Str)
  | calledProcessError (stderr : Str)
  | exn
deriving DecidableEq, Repr

/-- The external collaborators, at the interface the source calls them:
`inputs n` is the operator's answer to the n-th terminal prompt of the
session, `runner` is the process runner, `backend` is
`call_ollama_api_stream` (`none` models a transport failure after the
retry bound), `fetch` is `fetch_url_content`, `fsOk` tells whether the
`makedirs`+`write` block succeeds, `timestamp` renders
`int(time.time())`. -/
structure Env where
  inputs : Nat → Str
  runner : Str → RunResult
  backend : List Message → Option Str
  fetch : Str → Str
  fsOk : Str → Bool
  timestamp : Str

/-- Observable side effects, in chronological order.  `confirmPrompt`
and `debugPrompt` record the operator's answer to the execute / repair
confirmation; `runProc` is an invocation of the process runner;
`backendCall` records the exact message list sent to the backend. -/
inductive Event where
  | confirmPrompt (cmd answer : Str)
  | debugPrompt (answer : Str)
  | runProc (cmd : Str)
  | backendCall (msgs : List Message)
  | fetchUrl (url : Str)
  | mkdirs (dir : Str)
  | writeFile (name code : Str)
  | writeFailed (name : Str)
deriving DecidableEq, Repr

/-- Mutable session state: the conversation history and the index of the
next terminal prompt. -/
structure St where
  messages : List Message
  k : Nat
deriving DecidableEq, Repr

/-- Python truthiness of an `Optional[str]`. -/
def optTruthy : Option Str → Bool
  | some s => !s.isEmpty
  | none => false

/-- How an `Optional[str]` renders inside a Python f-string. -/
def optRender : Option Str → Str
  | some s => s
  | none => str "None"

/-- The `web_context_prompt` built in `handle_response`
(olacli.py lines 103-107). -/
def webContextPrompt (url content : Str) : Str :=
  str "Here is the text content from the URL " ++ url ++
  str ":\n\n--- WEB CONTENT ---\n" ++ content ++
  str "\n--- END WEB CONTENT ---\n\nBased on this content, please answer my original question."

/-- The success summary appended to the history after a successful
command (olacli.py line 159). -/
def successMsg (cmd out : Str) : Str :=
  str "Command `" ++ cmd ++ str "` was successful. Output:\n```\n" ++ out ++ str "\n```"

/-- The repair request built when filename and original code are
available (olacli.py line 165). -/
def debugPromptFile (cmd fname err lang code : Str) : Str :=
  str "Command `" ++ cmd ++ str "` failed on `" ++ fname ++
  str "`. Error:\n```\n" ++ err ++ str "\n```\nOriginal code:\n```" ++ lang ++
  str "\n" ++ code ++ str "\n```\nProvide a fix."

/-- The repair request built for a bare shell command
(olacli.py line 166). -/
def debugPromptCmd (cmd err : Str) : Str :=
  str "Command `" ++ cmd ++ str "` failed. Error:\n```\n" ++ err ++
  str "\n```\nProvide the corrected command."

/-- The `run_messages` sent to obtain a run command for a saved file
(olacli.py line 141). -/
def runCmdMessages (fname lang : Str) : List Message :=
  [⟨str "system", str "Provide ONLY the shell command to run the given file in the specified language."⟩,
   ⟨str "user", str "Command to run " ++ [quoteC] ++ fname ++ [quoteC] ++ str " in " ++ lang ++ str "?"⟩]

/-- The filename-suggestion prompt of `generate_filename`
(olacli.py line 175). -/
def fnPrompt (code lang : Str) : Str :=
  str "Suggest a concise, snake_case filename for this " ++ [quoteC] ++ lang ++ [quoteC] ++
  str " code. Respond ONLY with the filename.\n\nCode:\n```\n" ++ code ++ str "\n```"

/-- The fallback name `generated_code_<timestamp>.<language or txt>`
(olacli.py line 180). -/
def fallbackName (ts lang : Str) : Str :=
  str "generated_code_" ++ ts ++ str "." ++ (if lang.isEmpty then str "txt" else lang)

/-- Python `\w` (ASCII range). -/
def isWordChar (c : Char) : Bool := c.isAlphanum || c = '_'

/-- The character class of the filename-suggestion regex: word
characters plus dot, slash and dash. -/
def isFnameChar (c : Char) : Bool := isWordChar c || c = '.' || c = '/' || c = '-'

/-- Match of the filename pattern (a nonempty greedy run of class
characters, a literal dot, a nonempty word run) inside one maximal run
of class characters: the greedy first piece backtracks to the last `.`
that is followed by a word character, and `\w+` then takes the maximal
word run after that dot. -/
def fnMatchInRun (r : Str) : Option Str :=
  let ok := fun (k : Nat) =>
    decide (1 ≤ k) &&
    (match r.get? k with | some c => decide (c = '.') | Option.none => false) &&
    (match r.get? (k+1) with | some c => isWordChar c | Option.none => false)
  match ((List.range r.length).filter ok).getLast? with
  | some k => some (List.take k r ++ ['.'] ++ List.takeWhile isWordChar (List.drop (k+1) r))
  | none => none

/-- Leftmost match of the filename-suggestion search of
olacli.py line 178: at each start position the candidate text for the
greedy class run is the maximal run of class characters from there; on
failure the engine advances one character, as `re.search` does. -/
def fnSearch : Str → Option Str
  | [] => none
  | c :: rest =>
    if isFnameChar c then
      match fnMatchInRun (c :: List.takeWhile isFnameChar rest) with
      | some g => some g
      | none => fnSearch rest
    else fnSearch rest

/-- `os.path.dirname` for POSIX paths (olacli.py line 135). -/
def dirname (p : Str) : Str :=
  let i := p.length - (List.takeWhile (fun c => !(c = '/')) p.reverse).length
  let head := List.take i p
  if head.isEmpty then head
  else if head.all (fun c => c = '/') then head
  else (head.reverse.dropWhile (fun c => c = '/')).reverse

/-- `generate_filename` (olacli.py lines 173-180): one backend call with
a fresh prompt; a truthy response is searched for a filename-shaped
token, otherwise the deterministic fallback name is used. -/
def generate_filename (env : Env) (code lang : Str) : Str × List Event :=
  let msgs : List Message := [⟨str "user", fnPrompt code lang⟩]
  let evs := [Event.backendCall msgs]
  match env.backend msgs with
  | some resp =>
    if resp.isEmpty then (fallbackName env.timestamp lang, evs)
    else
      match fnSearch resp with
      | some m => (pyStrip m, evs)
      | none => (fallbackName env.timestamp lang, evs)
  | none => (fallbackName env.timestamp lang, evs)

/-- Python `.strip().replace(backquote, '')` used for a raw run-command
response (olacli.py line 145). -/
def stripTicks (s : Str) : Str := (pyStrip s).filter (fun c => !(c = btick))

/-- A pending call of the mutually recursive pair
`handle_response` / `execute_and_debug_command`. -/
inductive Req where
  | handle (ai_response : Str)
  | exec (cmd : Str) (original_code filename language : Option Str)

/-- The interpreter for `handle_response` (olacli.py lines 91-146) and
`execute_and_debug_command` (lines 149-172), as one fuel-indexed
function (the two are mutually recursive in the source; `fuel` bounds
the recursion depth and is decremented at each cross call).  The
`while True` loop of `execute_and_debug_command` runs its body exactly
once — every branch ends in `break` — so it is not a loop here.
Returns the new state and the chronological event trace. -/
def step (env : Env) : Nat → Req → St → St × List Event
  | 0, _, st => (st, [])
  | fuel+1, Req.handle ai_response, st =>
    match tool_match ai_response with
    | some url =>
      -- web-tool branch, lines 96-118: fetch, append one user message,
      -- one follow-up backend call, append the reply, return (the reply
      -- is not re-classified)
      let web_content := env.fetch url
      let msgs1 := st.messages ++ [⟨str "user", webContextPrompt url web_content⟩]
      let evs := [Event.fetchUrl url, Event.backendCall msgs1]
      match env.backend msgs1 with
      | some r => ({ st with messages := msgs1 ++ [⟨str "assistant", r⟩] }, evs)
      | none => ({ st with messages := msgs1 }, evs)
    | Option.none =>
      match extract_code_block ai_response with
      | (filename, some language, some code) =>
        if code = [] then (st, [])   -- line 122: `if not code: return`
        else if language = str "bash" ∨ language = str "sh" ∨ language = str "shell" then
          -- lines 125-128: shell command, no repair context
          step env fuel (Req.exec code Option.none Option.none Option.none) st
        else
          -- lines 131-146: file artifact
          let gen := match filename with
            | some f => if f.isEmpty then generate_filename env code language else (f, [])
            | Option.none => generate_filename env code language
          let fname := gen.1
          if env.fsOk fname then
            let dir := dirname fname
            let evs2 := (if dir.isEmpty then [] else [Event.mkdirs dir]) ++ [Event.writeFile fname code]
            let rmsgs := runCmdMessages fname language
            match env.backend rmsgs with
            | Option.none => (st, gen.2 ++ evs2 ++ [Event.backendCall rmsgs])
            | some rr =>
              let run_command := match extract_code_block rr with
                | (_, _, some c) => if c = [] then stripTicks rr else c
                | (_, _, Option.none) => stripTicks rr
              let sub := step env fuel (Req.exec run_command (some code) (some fname) (some language)) st
              (sub.1, gen.2 ++ evs2 ++ [Event.backendCall rmsgs] ++ sub.2)
          else (st, gen.2 ++ [Event.writeFailed fname])
      | (_, _, _) => (st, [])   -- `if not code: return` with code = None
  | fuel+1, Req.exec cmd oc fn lg, st =>
    let answer := env.inputs st.k
    let st1 : St := { st with k := st.k + 1 }
    -- line 153-154: confirmation; anything but stripped-lowered 'y' breaks
    if pyLower (pyStrip answer) ≠ str "y" then (st1, [Event.confirmPrompt cmd answer])
    else
      match env.runner cmd with
      | RunResult.ok out =>
        -- lines 157-160: success summary appended, break
        ({ st1 with messages := st1.messages ++ [⟨str "user", successMsg cmd out⟩] },
         [Event.confirmPrompt cmd answer, Event.runProc cmd])
      | RunResult.calledProcessError err =>
        -- lines 161-171: offer repair
        let answer2 := env.inputs st1.k
        let st2 : St := { st1 with k := st1.k + 1 }
        if pyLower (pyStrip answer2) ≠ str "y" then
          (st2, [Event.confirmPrompt cmd answer, Event.runProc cmd, Event.debugPrompt answer2])
        else
          let debug_prompt :=
            if optTruthy fn && optTruthy oc then
              debugPromptFile cmd (optRender fn) err (optRender lg) (optRender oc)
            else debugPromptCmd cmd err
          -- line 167: the repair request goes on a COPY of the history
          let debug_messages := st2.messages ++ [⟨str "user", debug_prompt⟩]
          let evs := [Event.confirmPrompt cmd answer, Event.runProc cmd,
                      Event.debugPrompt answer2, Event.backendCall debug_messages]
          match env.backend debug_messages with
          | some resp =>
            -- line 169: only the assistant reply is appended, then re-handled
            let st3 : St := { st2 with messages := st2.messages ++ [⟨str "assistant", resp⟩] }
            let sub := step env fuel (Req.handle resp) st3
            (sub.1, evs ++ sub.2)
          | Option.none => (st2, evs)
      | RunResult.exn =>
        -- line 172: unexpected error ends the chain, no repair offer
        (st1, [Event.confirmPrompt cmd answer, Event.runProc cmd])

/-- `handle_response(ai_response, messages, model)` with a recursion
budget. -/
def handle_response (fuel : Nat) (env : Env) (ai_response : Str) (st : St) : St × List Event :=
  step env fuel (Req.handle ai_response) st

/-- `execute_and_debug_command(command_to_run, messages, model,
original_code, filename, language)` with a recursion budget. -/
def execute_and_debug_command (fuel : Nat) (env : Env) (command_to_run : Str)
    (original_code filename language : Option Str) (st : St) : St × List Event :=
  step env fuel (Req.exec command_to_run original_code filename language) st

/-- `runsOkFrom auth t`: every `runProc` event in `t` is immediately
preceded by a confirmation event for the same command whose answer
strip-lowers to `y`; `auth` is the command (if any) that the directly
preceding event authorised.  A confirmation authorises at most the one
run directly after it, so each run needs a fresh confirmation. -/
def runsOkFrom : Option Str → List Event → Bool
  | _, [] => true
  | auth, Event.runProc c :: rest =>
    (if auth = some c then true else false) && runsOkFrom none rest
  | _, Event.confirmPrompt c ans :: rest =>
    runsOkFrom (if pyLower (pyStrip ans) = str "y" then some c else none) rest
  | _, _ :: rest => runsOkFrom none rest

/-- A trace in which every process invocation is immediately preceded by
its own affirmative confirmation. -/
def runsConfirmed (t : List Event) : Bool := runsOkFrom none t

/-- A trace with no process invocation at all. -/
def noRuns (t : List Event) : Bool :=
  t.all fun e => match e with | Event.runProc _ => false | _ => true

/-- No occurrence of `pat` starts strictly inside `a` when the full text
is `a ++ pat ++ z` (used to pin down the leftmost occurrence). -/
def noEarlierOcc (pat a z : Str) : Bool :=
  a.tails.all fun a₂ => a₂.isEmpty || !(startsWith pat (a₂ ++ pat ++ z))

/-- Environment of the repair-cycle scenario: `ls` fails with stderr
`boom`, every other command succeeds with stdout `out`, the operator
always answers `y`, and the backend proposes the fix `fix` in a bash
fence. -/
def envRepair : Env :=
  { inputs := fun _ => str "y",
    runner := fun c =>
      if c = str "ls" then RunResult.calledProcessError (str "boom")
      else RunResult.ok (str "out"),
    backend := fun _ => some (str "```bash\nfix\n```"),
    fetch := fun _ => str "",
    fsOk := fun _ => true,
    timestamp := str "0" }

/-- Environment of the web-tool scenario: the fetcher returns
`PAGE TEXT` and the follow-up backend reply contains a bash fence (which
must not be dispatched, since the reply is not re-classified). -/
def envWeb : Env :=
  { inputs := fun _ => str "",
    runner := fun _ => RunResult.ok (str ""),
    backend := fun _ => some (str "```bash\nrm -rf /tmp/x\n```"),
    fetch := fun _ => str "PAGE TEXT",
    fsOk := fun _ => true,
    timestamp := str "0" }

/-- History of the web-tool scenario: the operator's question and the
already-recorded assistant reply carrying the tool directive. -/
def stWeb : St :=
  ⟨[⟨str "user", str "What is the price of Bitcoin?"⟩,
    ⟨str "assistant", str "[TOOL_WEB] https://example.com/price"⟩], 0⟩

/-- Environment in which the operator declines the first prompt with
`yes` (which is not an affirmative answer). -/
def envDecline : Env :=
  { inputs := fun _ => str "yes",
    runner := fun _ => RunResult.ok (str "out"),
    backend := fun _ => some (str ""),
    fetch := fun _ => str "",
    fsOk := fun _ => true,
    timestamp := str "0" }

/-- Environment in which the operator approves the run (` Y ` strips and
lowers to `y`), the command fails, and the repair offer is declined with
an empty answer. -/
def envFailDecline : Env :=
  { inputs := fun n => if n = 0 then str " Y " else str "",
    runner := fun _ => RunResult.calledProcessError (str "boom"),
    backend := fun _ => some (str ""),
    fetch := fun _ => str "",
    fsOk := fun _ => true,
    timestamp := str "0" }

/-- Environment in which the operator answers `Y es` (declines: it does
not strip-lower to `y`). -/
def envSplitY : Env :=
  { inputs := fun _ => str "Y es",
    runner := fun _ => RunResult.ok (str "out"),
    backend := fun _ => some (str ""),
    fetch := fun _ => str "",
    fsOk := fun _ => true,
    timestamp := str "0" }

/-- An inert environment for claims that only need some environment. -/
def envInert : Env :=
  { inputs := fun _ => str "",
    runner := fun _ => RunResult.ok (str ""),
    backend := fun _ => none,
    fetch := fun _ => str "",
    fsOk := fun _ => true,
    timestamp := str "0" }

/-! ### Helper lemmas about the scanning primitives -/

theorem startsWith_append_self (p t : Str) : startsWith p (p ++ t) = true := by
  induction p with
  | nil => simp [startsWith]
  | cons c cs ih => simpa [startsWith] using ih

theorem splitOnFirst_at_head (c : Char) (p z : Str) :
    splitOnFirst (c :: p) ((c :: p) ++ z) = some ([], z) := by
  have h1 : startsWith (c :: p) ((c :: p) ++ z) = true := startsWith_append_self _ _
  have h2 : ((c :: p) ++ z).drop (c :: p).length = z := List.drop_left _ _
  rw [List.cons_append] at h1 h2 ⊢
  simp only [splitOnFirst, h1, if_true, h2]

theorem splitOnFirst_head_notMem (h : Char) (p b r : Str) (hb : h ∉ b) :
    splitOnFirst (h :: p) (b ++ (h :: p) ++ r) = some (b, r) := by
  induction b with
  | nil => simpa using splitOnFirst_at_head h p r
  | cons c b' ih =>
    have hch : ¬ (h = c) := fun he => hb (he ▸ List.mem_cons_self c b')
    have ih' := ih (fun hm => hb (List.mem_cons_of_mem c hm))
    simp only [List.append_assoc, List.cons_append] at ih' ⊢
    have hsw : startsWith (h :: p) (c :: (b' ++ (h :: (p ++ r)))) = false := by
      simp [startsWith, hch]
    simp only [splitOnFirst, hsw, Bool.false_eq_true, if_false]
    rw [ih']

theorem splitOnFirst_none_of_head_notMem (h : Char) (p l : Str) (hl : h ∉ l) :
    splitOnFirst (h :: p) l = none := by
  induction l with
  | nil => simp [splitOnFirst, startsWith]
  | cons c l' ih =>
    have hch : ¬ (h = c) := fun he => hl (he ▸ List.mem_cons_self c l')
    have ih' := ih (fun hm => hl (List.mem_cons_of_mem c hm))
    simp [splitOnFirst, startsWith, hch, ih']

theorem splitOnFirst_first_occ (h : Char) (p a z : Str)
    (hA : noEarlierOcc (h :: p) a z = true) :
    splitOnFirst (h :: p) (a ++ (h :: p) ++ z) = some (a, z) := by
  induction a with
  | nil => simpa using splitOnFirst_at_head h p z
  | cons c a' ih =>
    have hA' := hA
    unfold noEarlierOcc at hA'
    rw [List.tails_cons, List.all_cons] at hA'
    simp only [Bool.and_eq_true] at hA'
    have hmem : noEarlierOcc (h :: p) a' z = true := hA'.2
    have ih' := ih hmem
    simp only [List.append_assoc, List.cons_append] at ih' ⊢
    have hhead : startsWith (h :: p) (c :: (a' ++ (h :: (p ++ z)))) = false := by
      have h1 := hA'.1
      simp only [List.isEmpty_cons, Bool.false_or, Bool.not_eq_true'] at h1
      simp only [List.cons_append, List.append_assoc] at h1
      exact h1
    simp only [splitOnFirst, hhead, Bool.false_eq_true, if_false]
    rw [ih']

theorem takeWhile_append_all (p : Char → Bool) (u post : Str)
    (hu : ∀ c ∈ u, p c = true) :
    List.takeWhile p (u ++ post) = u ++ List.takeWhile p post := by
  induction u with
  | nil => simp
  | cons c u' ih =>
    have hc : p c = true := hu c (List.mem_cons_self c u')
    have ih' := ih (fun d hd => hu d (List.mem_cons_of_mem c hd))
    simp [List.takeWhile, hc, ih']

theorem dropWhile_append_all (p : Char → Bool) (ws x : Str)
    (hws : ∀ c ∈ ws, p c = true) :
    List.dropWhile p (ws ++ x) = List.dropWhile p x := by
  induction ws with
  | nil => simp
  | cons c ws' ih =>
    have hc : p c = true := hws c (List.mem_cons_self c ws')
    have ih' := ih (fun d hd => hws d (List.mem_cons_of_mem c hd))
    simp [List.dropWhile, hc, ih']

theorem code_match_cons (c : Char) (rest : Str) :
    code_match (c :: rest) =
      if startsWith (str "```") (c :: rest) = true then
        match fenceAfter (List.drop 3 (c :: rest)) with
        | some r => some r
        | none => code_match rest
      else code_match rest := rfl

theorem tool_match_cons (c : Char) (rest : Str) :
    tool_match (c :: rest) =
      if startsWith (str "[TOOL_WEB]") (c :: rest) = true then
        match urlAfter (List.drop (str "[TOOL_WEB]").length (c :: rest)) with
        | some u => some u
        | none => tool_match rest
      else tool_match rest := rfl

theorem code_match_append_notMem (a x : Str) (ha : btick ∉ a) :
    code_match (a ++ x) = code_match x := by
  induction a with
  | nil => simp
  | cons c a' ih =>
    have hcb : ¬ (btick = c) := fun he => ha (he ▸ List.mem_cons_self c a')
    have hsw : startsWith (str "```") (c :: (a' ++ x)) = false := by
      have h3 : str "```" = btick :: [btick, btick] := rfl
      rw [h3]
      simp [startsWith, hcb]
    have ih' := ih (fun hm => ha (List.mem_cons_of_mem c hm))
    rw [List.cons_append, code_match_cons]
    simp only [hsw, Bool.false_eq_true, if_false, ih']

theorem code_match_at_fence (l b r : Str) (hl : '\n' ∉ l) (hb : btick ∉ b) :
    code_match (str "```" ++ l ++ str "\n" ++ b ++ str "```" ++ r) = some (l, b) := by
  have hfence : str "```" = btick :: [btick, btick] := rfl
  have hnl : str "\n" = '\n' :: ([] : Str) := rfl
  have h1 : splitOnFirst (str "\n") (l ++ str "\n" ++ (b ++ str "```" ++ r)) =
      some (l, b ++ str "```" ++ r) := by
    rw [hnl]
    exact splitOnFirst_head_notMem '\n' [] l (b ++ str "```" ++ r) hl
  have h2 : splitOnFirst (str "```") (b ++ str "```" ++ r) = some (b, r) := by
    rw [hfence]
    exact splitOnFirst_head_notMem btick [btick, btick] b r hb
  have hfa : fenceAfter (l ++ str "\n" ++ (b ++ str "```" ++ r)) = some (l, b) := by
    unfold fenceAfter
    rw [h1]
    simp only [h2]
  have hshape : str "```" ++ l ++ str "\n" ++ b ++ str "```" ++ r =
      btick :: btick :: btick :: (l ++ str "\n" ++ (b ++ str "```" ++ r)) := by
    rw [hfence]
    simp [List.append_assoc]
  rw [hshape, code_match_cons]
  have hsw : startsWith (str "```")
      (btick :: btick :: btick :: (l ++ str "\n" ++ (b ++ str "```" ++ r))) = true := by
    show startsWith (btick :: btick :: btick :: ([] : Str)) _ = true
    simp [startsWith]
  simp only [hsw, if_true]
  have hdrop : List.drop 3 (btick :: btick :: btick :: (l ++ str "\n" ++ (b ++ str "```" ++ r))) =
      l ++ str "\n" ++ (b ++ str "```" ++ r) := rfl
  rw [hdrop, hfa]

theorem tool_match_append_notMem (a x : Str) (ha : '[' ∉ a) :
    tool_match (a ++ x) = tool_match x := by
  induction a with
  | nil => simp
  | cons c a' ih =>
    have hcb : ¬ ('[' = c) := fun he => ha (he ▸ List.mem_cons_self c a')
    have hsw : startsWith (str "[TOOL_WEB]") (c :: (a' ++ x)) = false := by
      have h3 : str "[TOOL_WEB]" = '[' :: str "TOOL_WEB]" := rfl
      rw [h3]
      simp [startsWith, hcb]
    have ih' := ih (fun hm => ha (List.mem_cons_of_mem c hm))
    rw [List.cons_append, tool_match_cons]
    simp only [hsw, Bool.false_eq_true, if_false, ih']

theorem tool_match_at_marker (rest : Str) (u : Str) (h : urlAfter rest = some u) :
    tool_match (str "[TOOL_WEB]" ++ rest) = some u := by
  have hsw : startsWith (str "[TOOL_WEB]") (str "[TOOL_WEB]" ++ rest) = true :=
    startsWith_append_self _ _
  have hdrop : List.drop (str "[TOOL_WEB]").length (str "[TOOL_WEB]" ++ rest) = rest :=
    List.drop_left _ _
  have hshape : str "[TOOL_WEB]" ++ rest = '[' :: (str "TOOL_WEB]" ++ rest) := rfl
  rw [hshape] at hsw hdrop ⊢
  rw [tool_match_cons]
  simp only [hsw, if_true]
  rw [hdrop, h]

theorem urlAfter_eval (ws u post : Str) (scheme : Str)
    (hws : ∀ c ∈ ws, isPySpace c = true)
    (hs : scheme = str "http://" ∨ scheme = str "https://")
    (hu : ∀ c ∈ u, isUrlChar c = true) (hu0 : u ≠ [])
    (hpost : List.takeWhile isUrlChar post = []) :
    urlAfter (ws ++ (scheme ++ (u ++ post))) = some (scheme ++ u) := by
  have hrun : List.takeWhile isUrlChar (u ++ post) = u := by
    rw [takeWhile_append_all isUrlChar u post hu, hpost, List.append_nil]
  have hne : u.isEmpty = false := by
    cases u with
    | nil => exact absurd rfl hu0
    | cons c cs => rfl
  cases hs with
  | inl h =>
    subst h
    have hdw : List.dropWhile isPySpace (ws ++ (str "http://" ++ (u ++ post))) =
        str "http://" ++ (u ++ post) := by
      rw [dropWhile_append_all isPySpace ws _ hws]
      exact rfl
    have hs1 : startsWith (str "https://") (str "http://" ++ (u ++ post)) = false := rfl
    have hs2 : startsWith (str "http://") (str "http://" ++ (u ++ post)) = true :=
      startsWith_append_self _ _
    have hdrop : List.drop (str "http://").length (str "http://" ++ (u ++ post)) = u ++ post :=
      List.drop_left _ _
    simp only [urlAfter, urlTail, hdw, hs1, hs2, Bool.false_eq_true, if_false, if_true,
      hdrop, hrun, hne]
  | inr h =>
    subst h
    have hdw : List.dropWhile isPySpace (ws ++ (str "https://" ++ (u ++ post))) =
        str "https://" ++ (u ++ post) := by
      rw [dropWhile_append_all isPySpace ws _ hws]
      exact rfl
    have hs2 : startsWith (str "https://") (str "https://" ++ (u ++ post)) = true :=
      startsWith_append_self _ _
    have hdrop : List.drop (str "https://").length (str "https://" ++ (u ++ post)) = u ++ post :=
      List.drop_left _ _
    simp only [urlAfter, urlTail, hdw, hs2, if_true, hdrop, hrun, hne,
      Bool.false_eq_true, if_false]

/-! ### The confirmation invariant (claim C1) -/

theorem generate_filename_snd (env : Env) (code lang : Str) :
    (generate_filename env code lang).2 =
      [Event.backendCall [⟨str "user", fnPrompt code lang⟩]] := by
  unfold generate_filename
  rcases h : env.backend [⟨str "user", fnPrompt code lang⟩] with _ | resp
  · simp [h]
  · simp only [h]
    split
    · rfl
    · split <;> rfl

theorem step_runsConfirmed (fuel : Nat) :
    ∀ req env st, runsOkFrom none (step env fuel req st).2 = true := by
  induction fuel with
  | zero => intro req env st; rfl
  | succ fuel ih =>
    intro req env st
    cases req with
    | handle resp =>
      rcases htm : tool_match resp with _ | url
      · rcases hec : extract_code_block resp with ⟨fn, _ | lng, _ | cd⟩ <;>
          simp only [step, htm, hec] <;>
          (repeat' split) <;>
          simp_all [generate_filename_snd, runsOkFrom, ih]
      · simp only [step, htm]
        rcases hb : env.backend _ with _ | r <;> simp [hb, runsOkFrom]
    | exec cmd oc fn lg =>
      simp only [step]
      (repeat' split) <;> simp_all [runsOkFrom, ih]

/-! ### Branch equations for the dispatcher and the confirm-execute-repair cycle -/

theorem exec_decline (fuel : Nat) (env : Env) (cmd : Str) (oc fn lg : Option Str) (st : St)
    (h : pyLower (pyStrip (env.inputs st.k)) ≠ str "y") :
    execute_and_debug_command (fuel+1) env cmd oc fn lg st =
      ({ st with k := st.k + 1 }, [Event.confirmPrompt cmd (env.inputs st.k)]) := by
  unfold execute_and_debug_command
  simp only [step]
  rw [if_pos h]

theorem exec_ok (fuel : Nat) (env : Env) (cmd : Str) (oc fn lg : Option Str) (st : St)
    (out : Str)
    (h1 : pyLower (pyStrip (env.inputs st.k)) = str "y")
    (h2 : env.runner cmd = RunResult.ok out) :
    execute_and_debug_command (fuel+1) env cmd oc fn lg st =
      ({ messages := st.messages ++ [⟨str "user", successMsg cmd out⟩], k := st.k + 1 },
       [Event.confirmPrompt cmd (env.inputs st.k), Event.runProc cmd]) := by
  unfold execute_and_debug_command
  simp only [step, h1, h2, ne_eq, not_true_eq_false, if_false]

theorem exec_fail_decline (fuel : Nat) (env : Env) (cmd : Str) (oc fn lg : Option Str)
    (st : St) (err : Str)
    (h1 : pyLower (pyStrip (env.inputs st.k)) = str "y")
    (h2 : env.runner cmd = RunResult.calledProcessError err)
    (h3 : pyLower (pyStrip (env.inputs (st.k + 1))) ≠ str "y") :
    execute_and_debug_command (fuel+1) env cmd oc fn lg st =
      ({ st with k := st.k + 1 + 1 },
       [Event.confirmPrompt cmd (env.inputs st.k), Event.runProc cmd,
        Event.debugPrompt (env.inputs (st.k + 1))]) := by
  unfold execute_and_debug_command
  simp only [step, h1, h2, ne_eq, not_true_eq_false, if_false]
  rw [if_pos h3]

theorem exec_fail_accept_some (fuel : Nat) (env : Env) (cmd : Str) (oc fn lg : Option Str)
    (st : St) (err dp resp : Str)
    (h1 : pyLower (pyStrip (env.inputs st.k)) = str "y")
    (h2 : env.runner cmd = RunResult.calledProcessError err)
    (h3 : pyLower (pyStrip (env.inputs (st.k + 1))) = str "y")
    (hdp : (if optTruthy fn && optTruthy oc then
        debugPromptFile cmd (optRender fn) err (optRender lg) (optRender oc)
      else debugPromptCmd cmd err) = dp)
    (hb : env.backend (st.messages ++ [⟨str "user", dp⟩]) = some resp) :
    execute_and_debug_command (fuel+1) env cmd oc fn lg st =
      ((handle_response fuel env resp
          ⟨st.messages ++ [⟨str "assistant", resp⟩], st.k + 1 + 1⟩).1,
       [Event.confirmPrompt cmd (env.inputs st.k), Event.runProc cmd,
        Event.debugPrompt (env.inputs (st.k + 1)),
        Event.backendCall (st.messages ++ [⟨str "user", dp⟩])] ++
       (handle_response fuel env resp
          ⟨st.messages ++ [⟨str "assistant", resp⟩], st.k + 1 + 1⟩).2) := by
  unfold execute_and_debug_command handle_response
  simp only [step, h1, h2, h3, ne_eq, not_true_eq_false, if_false, hdp, hb]

theorem exec_fail_accept_none (fuel : Nat) (env : Env) (cmd : Str) (oc fn lg : Option Str)
    (st : St) (err dp : Str)
    (h1 : pyLower (pyStrip (env.inputs st.k)) = str "y")
    (h2 : env.runner cmd = RunResult.calledProcessError err)
    (h3 : pyLower (pyStrip (env.inputs (st.k + 1))) = str "y")
    (hdp : (if optTruthy fn && optTruthy oc then
        debugPromptFile cmd (optRender fn) err (optRender lg) (optRender oc)
      else debugPromptCmd cmd err) = dp)
    (hb : env.backend (st.messages ++ [⟨str "user", dp⟩]) = none) :
    execute_and_debug_command (fuel+1) env cmd oc fn lg st =
      ({ st with k := st.k + 1 + 1 },
       [Event.confirmPrompt cmd (env.inputs st.k), Event.runProc cmd,
        Event.debugPrompt (env.inputs (st.k + 1)),
        Event.backendCall (st.messages ++ [⟨str "user", dp⟩])]) := by
  unfold execute_and_debug_command
  simp only [step, h1, h2, h3, ne_eq, not_true_eq_false, if_false, hdp, hb]

theorem handle_web (fuel : Nat) (env : Env) (resp : Str) (st : St) (url : Str)
    (h : tool_match resp = some url) :
    handle_response (fuel+1) env resp st =
      (match env.backend (st.messages ++ [⟨str "user", webContextPrompt url (env.fetch url)⟩]) with
       | some r =>
         ({ st with messages := (st.messages ++
             [⟨str "user", webContextPrompt url (env.fetch url)⟩]) ++ [⟨str "assistant", r⟩] },
          [Event.fetchUrl url,
           Event.backendCall (st.messages ++ [⟨str "user", webContextPrompt url (env.fetch url)⟩])])
       | none =>
         ({ st with messages := st.messages ++
             [⟨str "user", webContextPrompt url (env.fetch url)⟩] },
          [Event.fetchUrl url,
           Event.backendCall (st.messages ++
             [⟨str "user", webContextPrompt url (env.fetch url)⟩])])) := by
  unfold handle_response
  simp only [step, h]

theorem handle_none (fuel : Nat) (env : Env) (resp : Str) (st : St)
    (h1 : tool_match resp = none)
    (h2 : (extract_code_block resp).2.2 = none ∨ (extract_code_block resp).2.2 = some []) :
    handle_response fuel env resp st = (st, []) := by
  cases fuel with
  | zero => rfl
  | succ fuel =>
    rcases he : extract_code_block resp with ⟨fn, lng, cd⟩
    rw [he] at h2
    simp only at h2
    unfold handle_response
    rcases lng with _ | l
    · simp [step, h1, he]
    · rcases cd with _ | c
      · simp [step, h1, he]
      · rcases h2 with h2 | h2
        · exact absurd h2 (by simp)
        · have hc : c = [] := by simpa using h2
          subst hc
          simp [step, h1, he]

theorem handle_shell (fuel : Nat) (env : Env) (resp : Str) (st : St) (fn : Option Str)
    (lng cd : Str)
    (h1 : tool_match resp = none)
    (h2 : extract_code_block resp = (fn, some lng, some cd))
    (h3 : cd ≠ [])
    (h4 : lng = str "bash" ∨ lng = str "sh" ∨ lng = str "shell") :
    handle_response (fuel+1) env resp st =
      execute_and_debug_command fuel env cd none none none st := by
  unfold handle_response execute_and_debug_command
  simp [step, h1, h2, h3, h4]

theorem exec_exn (fuel : Nat) (env : Env) (cmd : Str) (oc fn lg : Option Str) (st : St)
    (h1 : pyLower (pyStrip (env.inputs st.k)) = str "y")
    (h2 : env.runner cmd = RunResult.exn) :
    execute_and_debug_command (fuel+1) env cmd oc fn lg st =
      ({ st with k := st.k + 1 },
       [Event.confirmPrompt cmd (env.inputs st.k), Event.runProc cmd]) := by
  unfold execute_and_debug_command
  simp only [step, h1, h2, ne_eq, not_true_eq_false, if_false]

theorem extract_code_block_fst (t : Str) :
    (extract_code_block t).1 = (extract_filename t).map pyStrip := by
  unfold extract_code_block
  rcases code_match t with _ | ⟨l, b⟩ <;> simp

/-! ### The claims -/

/-- C1: for every proposed command string, the process runner is never
invoked unless the operator has just given an affirmative confirmation
(input that strips and lowers to `y`) for that exact command string, and
every recursion of the repair cycle requires a fresh affirmative
confirmation before its new command is executed: in every trace of
`handle_response` or `execute_and_debug_command`, under any environment
and any recursion budget, each `runProc` event is immediately preceded
by a `confirmPrompt` event carrying the same command and an affirmative
answer, and a single confirmation authorises only the single run
directly after it. -/
theorem c1_shell_needs_fresh_confirmation :
    (∀ fuel env resp st, runsConfirmed (handle_response fuel env resp st).2 = true) ∧
    (∀ fuel env cmd oc fn lg st,
      runsConfirmed (execute_and_debug_command fuel env cmd oc fn lg st).2 = true) :=
  ⟨fun fuel env resp st => step_runsConfirmed fuel (Req.handle resp) env st,
   fun fuel env cmd oc fn lg st =>
     step_runsConfirmed fuel (Req.exec cmd oc fn lg) env st⟩

/-- C2: a response text containing the web-tool marker followed by a URL
classifies as `WebTool` with that exact URL; fenced code blocks in the
same text are ignored (the first conjunct covers every text on which the
marker-URL matcher succeeds; the second derives the exact URL for a text
built from a prefix without `[`, the marker, whitespace, a scheme and a
URL-character run).  Classification is a function, so exactly one Action
is derived per response. -/
theorem c2_webtool_priority :
    (∀ text url, tool_match text = some url → classify text = Action.webTool url) ∧
    (∀ pre ws u post scheme,
       '[' ∉ pre → (∀ c ∈ ws, isPySpace c = true) →
       (scheme = str "http://" ∨ scheme = str "https://") →
       (∀ c ∈ u, isUrlChar c = true) → u ≠ [] →
       List.takeWhile isUrlChar post = [] →
       classify (pre ++ (str "[TOOL_WEB]" ++ (ws ++ (scheme ++ (u ++ post))))) =
         Action.webTool (scheme ++ u)) := by
  constructor
  · intro text url h
    unfold classify
    rw [h]
  · intro pre ws u post scheme hpre hws hs hu hu0 hpost
    have hurl : urlAfter (ws ++ (scheme ++ (u ++ post))) = some (scheme ++ u) :=
      urlAfter_eval ws u post scheme hws hs hu hu0 hpost
    have htm1 : tool_match (str "[TOOL_WEB]" ++ (ws ++ (scheme ++ (u ++ post)))) =
        some (scheme ++ u) := tool_match_at_marker _ _ hurl
    have htm : tool_match (pre ++ (str "[TOOL_WEB]" ++ (ws ++ (scheme ++ (u ++ post))))) =
        some (scheme ++ u) := by
      rw [tool_match_append_notMem pre _ hpre, htm1]
    unfold classify
    rw [htm]

/-- Witness for C2: a concrete response containing both the tool marker
and a bash fence classifies as `WebTool` with the exact URL; the fence
is ignored. -/
theorem c2_webtool_priority_witness :
    classify (str "See [TOOL_WEB] https://a.b/c\n```bash\nls\n```") =
      Action.webTool (str "https://a.b/c") := by
  have hshape : str "See [TOOL_WEB] https://a.b/c\n```bash\nls\n```" =
      str "See " ++ (str "[TOOL_WEB]" ++ (str " " ++ (str "https://" ++
        (str "a.b/c" ++ str "\n```bash\nls\n```")))) := by decide
  have hurl : str "https://a.b/c" = str "https://" ++ str "a.b/c" := by decide
  rw [hshape, hurl]
  exact c2_webtool_priority.2 (str "See ") (str " ") (str "a.b/c")
    (str "\n```bash\nls\n```") (str "https://")
    (by decide) (by decide) (Or.inr rfl) (by decide) (by decide) (by decide)

/-- C3: a declining answer at either confirmation prompt ends the cycle
with no further side effects: with a non-affirmative answer to the
execute prompt, no process is run, no file is written, nothing is
appended to the history, and the trace holds only the confirmation
event; with an approved run that fails and a non-affirmative answer to
the repair prompt, the history is likewise unchanged and the trace ends
at the repair prompt (no backend call, no further execution, no file
write). -/
theorem c3_decline_zero_side_effects :
    (∀ fuel env cmd oc fn lg st,
       pyLower (pyStrip (env.inputs st.k)) ≠ str "y" →
       (execute_and_debug_command (fuel+1) env cmd oc fn lg st).1.messages = st.messages ∧
       (execute_and_debug_command (fuel+1) env cmd oc fn lg st).2 =
         [Event.confirmPrompt cmd (env.inputs st.k)]) ∧
    (∀ fuel env cmd oc fn lg st err,
       pyLower (pyStrip (env.inputs st.k)) = str "y" →
       env.runner cmd = RunResult.calledProcessError err →
       pyLower (pyStrip (env.inputs (st.k + 1))) ≠ str "y" →
       (execute_and_debug_command (fuel+1) env cmd oc fn lg st).1.messages = st.messages ∧
       (execute_and_debug_command (fuel+1) env cmd oc fn lg st).2 =
         [Event.confirmPrompt cmd (env.inputs st.k), Event.runProc cmd,
          Event.debugPrompt (env.inputs (st.k + 1))]) := by
  constructor
  · intro fuel env cmd oc fn lg st h
    rw [exec_decline fuel env cmd oc fn lg st h]
    exact ⟨rfl, rfl⟩
  · intro fuel env cmd oc fn lg st err h1 h2 h3
    rw [exec_fail_decline fuel env cmd oc fn lg st err h1 h2 h3]
    exact ⟨rfl, rfl⟩

/-- Witness for C3: concrete declined prompts leave the history empty
and run nothing further. -/
theorem c3_decline_zero_side_effects_witness :
    ((execute_and_debug_command 1 envDecline (str "rm -rf /tmp") none none none
        ⟨[], 0⟩).1.messages = [] ∧
     (execute_and_debug_command 1 envDecline (str "rm -rf /tmp") none none none
        ⟨[], 0⟩).2 = [Event.confirmPrompt (str "rm -rf /tmp") (str "yes")]) ∧
    ((execute_and_debug_command 1 envFailDecline (str "make") none none none
        ⟨[], 0⟩).1.messages = [] ∧
     (execute_and_debug_command 1 envFailDecline (str "make") none none none
        ⟨[], 0⟩).2 = [Event.confirmPrompt (str "make") (str " Y "),
          Event.runProc (str "make"), Event.debugPrompt (str "")]) := by
  constructor
  · have h := c3_decline_zero_side_effects.1 0 envDecline (str "rm -rf /tmp")
      none none none ⟨[], 0⟩ (by decide)
    exact ⟨h.1, by rw [h.2]; decide⟩
  · have h := c3_decline_zero_side_effects.2 0 envFailDecline (str "make")
      none none none ⟨[], 0⟩ (str "boom") (by decide) (by decide) (by decide)
    exact ⟨h.1, by rw [h.2]; decide⟩

/-- C5: fenced-block extraction always uses the first opening fence and
its nearest closing fence: for a text that is any backquote-free prefix,
a first fenced block, and then an arbitrary remainder (in particular one
holding a second fenced block), the extracted language and code come
from the first block only, whatever the remainder is. -/
theorem c5_first_fence_wins (a l b rest : Str)
    (ha : btick ∉ a) (hl : '\n' ∉ l) (hb : btick ∉ b) :
    (extract_code_block (a ++ (str "```" ++ l ++ str "\n" ++ b ++ str "```" ++ rest))).2 =
      (some (pyLower (pyStrip l)), some (pyStrip b)) := by
  have h1 : code_match (a ++ (str "```" ++ l ++ str "\n" ++ b ++ str "```" ++ rest)) =
      some (l, b) := by
    rw [code_match_append_notMem a _ ha, code_match_at_fence l b rest hl hb]
  unfold extract_code_block
  rw [h1]

/-- Witness for C5: a text with two fenced blocks; only the first is
extracted, the second (a python block) is ignored. -/
theorem c5_first_fence_wins_witness :
    (extract_code_block
      (str "Text: ```bash\nls -la\n```\nand\n```python\nx = 1\n```")).2 =
      (some (str "bash"), some (str "ls -la")) := by
  have hshape : str "Text: ```bash\nls -la\n```\nand\n```python\nx = 1\n```" =
      str "Text: " ++ (str "```" ++ str "bash" ++ str "\n" ++ str "ls -la\n" ++
        str "```" ++ str "\nand\n```python\nx = 1\n```") := by decide
  have h1 : pyLower (pyStrip (str "bash")) = str "bash" := by decide
  have h2 : pyStrip (str "ls -la\n") = str "ls -la" := by decide
  rw [hshape, ← h1, ← h2]
  exact c5_first_fence_wins (str "Text: ") (str "bash") (str "ls -la\n")
    (str "\nand\n```python\nx = 1\n```") (by decide) (by decide) (by decide)

/-- C10: at every confirmation prompt — the initial execution prompt
and the repair-offer prompt alike — the only affirmative answer is one
whose strip-lower normal form is exactly `y`.  Any other answer (such as
`yes`, an empty line or `Y es`) counts as a decline: the execute prompt
then ends with only the confirmation event and the history unchanged,
and the repair prompt then ends at the `debugPrompt` event with the
history unchanged.  An answer normalising to `y` proceeds: at the
execute prompt the trace continues with the process invocation of that
exact command, and at the repair prompt it continues with the backend
call carrying the repair request. -/
theorem c10_only_y_affirms :
    (∀ fuel env cmd oc fn lg st,
       pyLower (pyStrip (env.inputs st.k)) ≠ str "y" →
       (execute_and_debug_command (fuel+1) env cmd oc fn lg st).1.messages = st.messages ∧
       (execute_and_debug_command (fuel+1) env cmd oc fn lg st).2 =
         [Event.confirmPrompt cmd (env.inputs st.k)]) ∧
    (∀ fuel env cmd oc fn lg st,
       pyLower (pyStrip (env.inputs st.k)) = str "y" →
       (execute_and_debug_command (fuel+1) env cmd oc fn lg st).2.take 2 =
         [Event.confirmPrompt cmd (env.inputs st.k), Event.runProc cmd]) ∧
    (∀ fuel env cmd oc fn lg st err,
       pyLower (pyStrip (env.inputs st.k)) = str "y" →
       env.runner cmd = RunResult.calledProcessError err →
       pyLower (pyStrip (env.inputs (st.k + 1))) ≠ str "y" →
       (execute_and_debug_command (fuel+1) env cmd oc fn lg st).1.messages = st.messages ∧
       (execute_and_debug_command (fuel+1) env cmd oc fn lg st).2 =
         [Event.confirmPrompt cmd (env.inputs st.k), Event.runProc cmd,
          Event.debugPrompt (env.inputs (st.k + 1))]) ∧
    (∀ fuel env cmd oc fn lg st err,
       pyLower (pyStrip (env.inputs st.k)) = str "y" →
       env.runner cmd = RunResult.calledProcessError err →
       pyLower (pyStrip (env.inputs (st.k + 1))) = str "y" →
       (execute_and_debug_command (fuel+1) env cmd oc fn lg st).2.take 4 =
         [Event.confirmPrompt cmd (env.inputs st.k), Event.runProc cmd,
          Event.debugPrompt (env.inputs (st.k + 1)),
          Event.backendCall (st.messages ++ [⟨str "user",
            if optTruthy fn && optTruthy oc then
              debugPromptFile cmd (optRender fn) err (optRender lg) (optRender oc)
            else debugPromptCmd cmd err⟩])]) := by
  refine ⟨?_, ?_, ?_, ?_⟩
  · intro fuel env cmd oc fn lg st h
    rw [exec_decline fuel env cmd oc fn lg st h]
    exact ⟨rfl, rfl⟩
  · intro fuel env cmd oc fn lg st h1
    rcases hr : env.runner cmd with out | err | _
    · rw [exec_ok fuel env cmd oc fn lg st out h1 hr]
      rfl
    · by_cases h3 : pyLower (pyStrip (env.inputs (st.k + 1))) ≠ str "y"
      · rw [exec_fail_decline fuel env cmd oc fn lg st err h1 hr h3]
        rfl
      · have h3a : pyLower (pyStrip (env.inputs (st.k + 1))) = str "y" := not_not.mp h3
        rcases hb : env.backend (st.messages ++ [⟨str "user",
            if optTruthy fn && optTruthy oc then
              debugPromptFile cmd (optRender fn) err (optRender lg) (optRender oc)
            else debugPromptCmd cmd err⟩]) with _ | resp
        · rw [exec_fail_accept_none fuel env cmd oc fn lg st err _ h1 hr h3a rfl hb]
          rfl
        · rw [exec_fail_accept_some fuel env cmd oc fn lg st err _ resp h1 hr h3a rfl hb]
          rfl
    · rw [exec_exn fuel env cmd oc fn lg st h1 hr]
      rfl
  · intro fuel env cmd oc fn lg st err h1 h2 h3
    rw [exec_fail_decline fuel env cmd oc fn lg st err h1 h2 h3]
    exact ⟨rfl, rfl⟩
  · intro fuel env cmd oc fn lg st err h1 h2 h3
    rcases hb : env.backend (st.messages ++ [⟨str "user",
        if optTruthy fn && optTruthy oc then
          debugPromptFile cmd (optRender fn) err (optRender lg) (optRender oc)
        else debugPromptCmd cmd err⟩]) with _ | resp
    · rw [exec_fail_accept_none fuel env cmd oc fn lg st err _ h1 h2 h3 rfl hb]
      rfl
    · rw [exec_fail_accept_some fuel env cmd oc fn lg st err _ resp h1 h2 h3 rfl hb]
      rfl

/-- Witness for C10.  Execute prompt: `yes`, the empty answer and `Y es`
all decline, while ` Y ` (stripping and lowering to `y`) triggers the
run.  Repair prompt: after an approved failing `make`, the empty answer
declines and the trace ends at the repair offer, while after an approved
failing `ls` the answer `y` proceeds to the backend call carrying the
repair request. -/
theorem c10_only_y_affirms_witness :
    (execute_and_debug_command 1 envDecline (str "ls") none none none ⟨[], 0⟩).2 =
      [Event.confirmPrompt (str "ls") (str "yes")] ∧
    (execute_and_debug_command 1 envInert (str "ls") none none none ⟨[], 0⟩).2 =
      [Event.confirmPrompt (str "ls") (str "")] ∧
    (execute_and_debug_command 1 envSplitY (str "ls") none none none ⟨[], 0⟩).2 =
      [Event.confirmPrompt (str "ls") (str "Y es")] ∧
    (execute_and_debug_command 1 envFailDecline (str "ls") none none none ⟨[], 0⟩).2.take 2 =
      [Event.confirmPrompt (str "ls") (str " Y "), Event.runProc (str "ls")] ∧
    ((execute_and_debug_command 1 envFailDecline (str "make") none none none
        ⟨[], 0⟩).1.messages = [] ∧
     (execute_and_debug_command 1 envFailDecline (str "make") none none none ⟨[], 0⟩).2 =
       [Event.confirmPrompt (str "make") (str " Y "), Event.runProc (str "make"),
        Event.debugPrompt (str "")]) ∧
    (execute_and_debug_command 1 envRepair (str "ls") none none none ⟨[], 0⟩).2.take 4 =
      [Event.confirmPrompt (str "ls") (str "y"), Event.runProc (str "ls"),
       Event.debugPrompt (str "y"),
       Event.backendCall [⟨str "user", debugPromptCmd (str "ls") (str "boom")⟩]] := by
  refine ⟨?_, ?_, ?_, ?_, ?_, ?_⟩
  · have h := (c10_only_y_affirms.1 0 envDecline (str "ls") none none none
      ⟨[], 0⟩ (by decide)).2
    rw [h]; decide
  · have h := (c10_only_y_affirms.1 0 envInert (str "ls") none none none
      ⟨[], 0⟩ (by decide)).2
    rw [h]; decide
  · have h := (c10_only_y_affirms.1 0 envSplitY (str "ls") none none none
      ⟨[], 0⟩ (by decide)).2
    rw [h]; decide
  · have h := c10_only_y_affirms.2.1 0 envFailDecline (str "ls") none none none
      ⟨[], 0⟩ (by decide)
    rw [h]; decide
  · have h := c10_only_y_affirms.2.2.1 0 envFailDecline (str "make") none none none
      ⟨[], 0⟩ (str "boom") (by decide) (by decide) (by decide)
    exact ⟨h.1, by rw [h.2]; decide⟩
  · have h := c10_only_y_affirms.2.2.2 0 envRepair (str "ls") none none none
      ⟨[], 0⟩ (str "boom") (by decide) (by decide) (by decide)
    rw [h]; decide

/-- Counterexample for C4: a failed command (`ls`, stderr `boom`) with an
accepted repair whose fix (`fix`) succeeds.  The final history holds
exactly the assistant reply and the success summary: the repair-request
message (`debugPromptCmd`) is NOT appended to the persistent history —
it is only sent to the backend on a transient copy (the `backendCall`
event carries it), contradicting the claim that exactly one
repair-request message is appended. -/
theorem c4_repair_request_not_appended_counterexample :
    (execute_and_debug_command 3 envRepair (str "ls") none none none ⟨[], 0⟩).1.messages =
      [⟨str "assistant", str "```bash\nfix\n```"⟩,
       ⟨str "user", successMsg (str "fix") (str "out")⟩] ∧
    Message.mk (str "user") (debugPromptCmd (str "ls") (str "boom")) ∉
      (execute_and_debug_command 3 envRepair (str "ls") none none none ⟨[], 0⟩).1.messages ∧
    Event.backendCall [⟨str "user", debugPromptCmd (str "ls") (str "boom")⟩] ∈
      (execute_and_debug_command 3 envRepair (str "ls") none none none ⟨[], 0⟩).2 := by
  decide

/-- C4 amended: for a failed shell command whose repair offer is
accepted, the repair request is sent to the backend on a transient copy
of the history (visible in the `backendCall` event) but is not appended
to the persistent history; exactly one assistant message (the backend's
reply) is appended, and when the proposed fix is confirmed and succeeds,
exactly one success-summary message is appended. -/
theorem c4_amended_repair_appends (fuel : Nat) (env : Env) (cmd : Str) (st : St)
    (err resp : Str) (fnr : Option Str) (lng fix out : Str)
    (h1 : pyLower (pyStrip (env.inputs st.k)) = str "y")
    (h2 : env.runner cmd = RunResult.calledProcessError err)
    (h3 : pyLower (pyStrip (env.inputs (st.k + 1))) = str "y")
    (hb : env.backend (st.messages ++ [⟨str "user", debugPromptCmd cmd err⟩]) = some resp)
    (h4 : tool_match resp = none)
    (h5 : extract_code_block resp = (fnr, some lng, some fix))
    (h6 : fix ≠ [])
    (h7 : lng = str "bash" ∨ lng = str "sh" ∨ lng = str "shell")
    (h8 : pyLower (pyStrip (env.inputs (st.k + 1 + 1))) = str "y")
    (h9 : env.runner fix = RunResult.ok out) :
    execute_and_debug_command (fuel+1+1+1) env cmd none none none st =
      (⟨st.messages ++ [⟨str "assistant", resp⟩, ⟨str "user", successMsg fix out⟩],
        st.k + 1 + 1 + 1⟩,
       [Event.confirmPrompt cmd (env.inputs st.k), Event.runProc cmd,
        Event.debugPrompt (env.inputs (st.k + 1)),
        Event.backendCall (st.messages ++ [⟨str "user", debugPromptCmd cmd err⟩]),
        Event.confirmPrompt fix (env.inputs (st.k + 1 + 1)), Event.runProc fix]) := by
  rw [exec_fail_accept_some (fuel+1+1) env cmd none none none st err
    (debugPromptCmd cmd err) resp h1 h2 h3 rfl hb]
  rw [handle_shell (fuel+1) env resp
    ⟨st.messages ++ [Message.mk (str "assistant") resp], st.k + 1 + 1⟩ fnr lng fix h4 h5 h6 h7]
  rw [exec_ok fuel env fix none none none
    ⟨st.messages ++ [Message.mk (str "assistant") resp], st.k + 1 + 1⟩ out h8 h9]
  simp [List.append_assoc]

/-- Witness for C4 amended: the concrete repair scenario, with history
equal to exactly the assistant reply followed by the success summary. -/
theorem c4_amended_repair_appends_witness :
    execute_and_debug_command 3 envRepair (str "ls") none none none ⟨[], 0⟩ =
      (⟨[⟨str "assistant", str "```bash\nfix\n```"⟩,
         ⟨str "user", successMsg (str "fix") (str "out")⟩], 3⟩,
       [Event.confirmPrompt (str "ls") (str "y"), Event.runProc (str "ls"),
        Event.debugPrompt (str "y"),
        Event.backendCall [⟨str "user", debugPromptCmd (str "ls") (str "boom")⟩],
        Event.confirmPrompt (str "fix") (str "y"), Event.runProc (str "fix")]) := by
  have h := c4_amended_repair_appends 0 envRepair (str "ls") ⟨[], 0⟩
    (str "boom") (str "```bash\nfix\n```") none (str "bash") (str "fix") (str "out")
    (by decide) (by decide) (by decide) (by decide) (by decide) (by decide)
    (by decide) (by decide) (by decide) (by decide)
  rw [h]
  decide

/-- Counterexample for C6: a text whose first (and only) fenced block is
tagged `bash` but has a whitespace-only body classifies as no action,
not as a `ShellCommand` with empty script. -/
theorem c6_empty_body_counterexample :
    (extract_code_block (str "```bash\n \n```")).2.1 = some (str "bash") ∧
    classify (str "```bash\n \n```") = Action.none := by
  decide

/-- C6 amended: for a response text with no web-tool directive whose
first fenced block is tagged (after strip-lower) `bash`, `sh` or
`shell` and whose body trims to a nonempty string, classification
yields `ShellCommand` with exactly the trimmed body. -/
theorem c6_amended_shell_classification (text l bdy : Str)
    (h0 : tool_match text = none)
    (h1 : code_match text = some (l, bdy))
    (h2 : pyLower (pyStrip l) = str "bash" ∨ pyLower (pyStrip l) = str "sh" ∨
      pyLower (pyStrip l) = str "shell")
    (h3 : pyStrip bdy ≠ []) :
    classify text = Action.shellCommand (pyStrip bdy) := by
  have he : extract_code_block text =
      ((extract_filename text).map pyStrip, some (pyLower (pyStrip l)), some (pyStrip bdy)) := by
    unfold extract_code_block
    rw [h1]
  unfold classify
  rw [h0]
  simp only [he]
  rw [if_neg h3, if_pos h2]

/-- Witness for C6 amended: the spec's own example yields
`ShellCommand` with script `ls -la`. -/
theorem c6_amended_shell_classification_witness :
    classify (str "Sure, run:\n```bash\nls -la\n```") =
      Action.shellCommand (pyStrip (str "ls -la\n")) :=
  c6_amended_shell_classification (str "Sure, run:\n```bash\nls -la\n```")
    (str "bash") (str "ls -la\n") (by decide) (by decide) (by decide) (by decide)

/-- Counterexample for C7: a `filename:` line placed AFTER the fenced
region does supply the filename — `extract_code_block` searches the
whole text, not only the part preceding the fence (the second conjunct
shows the fence is indeed extracted from the part before the filename
line). -/
theorem c7_filename_after_fence_counterexample :
    (extract_code_block (str "```py\nx = 1\n```\nfilename: foo.py\n")).1 =
      some (str "foo.py") ∧
    (extract_code_block (str "```py\nx = 1\n```\nfilename: foo.py\n")).2.1 =
      some (str "py") := by
  decide

/-- C7 amended: the filename is taken from the first `filename: ` line
occurring anywhere in the text (before, inside or after the fenced
region): for any text made of a prefix containing no occurrence of the
pattern, the pattern, a newline-free name and a remainder, the extracted
filename is the stripped name — whatever the prefix and remainder hold. -/
theorem c7_amended_filename_anywhere (a name rest : Str)
    (hA : noEarlierOcc (str "filename: ") a (name ++ (str "\n" ++ rest)) = true)
    (hname : '\n' ∉ name) :
    (extract_code_block (a ++ (str "filename: " ++ (name ++ (str "\n" ++ rest))))).1 =
      some (pyStrip name) := by
  rw [extract_code_block_fst]
  have hpat : str "filename: " = 'f' :: str "ilename: " := rfl
  have hA2 : noEarlierOcc ('f' :: str "ilename: ") a (name ++ (str "\n" ++ rest)) = true := by
    rw [← hpat]; exact hA
  have h1 : splitOnFirst (str "filename: ")
      (a ++ (str "filename: " ++ (name ++ (str "\n" ++ rest)))) =
      some (a, name ++ (str "\n" ++ rest)) := by
    have h := splitOnFirst_first_occ 'f' (str "ilename: ") a (name ++ (str "\n" ++ rest)) hA2
    rw [← hpat] at h
    rw [List.append_assoc] at h
    exact h
  have h2 : splitOnFirst (str "\n") (name ++ (str "\n" ++ rest)) = some (name, rest) := by
    have hnl : str "\n" = '\n' :: ([] : Str) := rfl
    have h := splitOnFirst_head_notMem '\n' [] name rest hname
    rw [List.append_assoc] at h
    rw [hnl]
    exact h
  unfold extract_filename
  simp only [h1, h2]
  rfl

/-- Witness for C7 amended: a `filename:` line after a fenced block
(with trailing text) supplies the filename. -/
theorem c7_amended_filename_anywhere_witness :
    (extract_code_block (str "```rb\nputs 1\n```\nfilename: bar.rb\nok")).1 =
      some (pyStrip (str "bar.rb")) := by
  have hshape : str "```rb\nputs 1\n```\nfilename: bar.rb\nok" =
      str "```rb\nputs 1\n```\n" ++
        (str "filename: " ++ (str "bar.rb" ++ (str "\n" ++ str "ok"))) := by decide
  rw [hshape]
  exact c7_amended_filename_anywhere (str "```rb\nputs 1\n```\n") (str "bar.rb")
    (str "ok") (by decide) (by decide)

/-- C8: a response with no tool directive and no complete fenced block
(or a body trimming to empty) classifies as no action, and dispatch has
zero side effects: the state is unchanged and the event trace is empty
(no process, no file write, no backend call, no history append).  A
malformed filename line — `filename: ` with no terminating newline —
makes the filename absent rather than raising an error. -/
theorem c8_no_action_no_side_effects :
    (∀ fuel env st text,
       tool_match text = none →
       ((extract_code_block text).2.2 = none ∨ (extract_code_block text).2.2 = some []) →
       classify text = Action.none ∧ handle_response fuel env text st = (st, [])) ∧
    (∀ name, '\n' ∉ name → (extract_code_block (str "filename: " ++ name)).1 = none) := by
  constructor
  · intro fuel env st text h0 h2
    refine ⟨?_, handle_none fuel env text st h0 h2⟩
    rcases he : extract_code_block text with ⟨fn, lng, cd⟩
    rw [he] at h2
    simp only at h2
    unfold classify
    rw [h0]
    rcases lng with _ | l
    · simp [he]
    · rcases cd with _ | c
      · simp [he]
      · rcases h2 with h2 | h2
        · exact absurd h2 (by simp)
        · have hc : c = [] := by simpa using h2
          subst hc
          simp [he]
  · intro name hname
    rw [extract_code_block_fst]
    have hpat : str "filename: " = 'f' :: str "ilename: " := rfl
    have h1 : splitOnFirst (str "filename: ") (str "filename: " ++ name) = some ([], name) := by
      rw [hpat]
      exact splitOnFirst_at_head 'f' (str "ilename: ") name
    have h2 : splitOnFirst (str "\n") name = none := by
      have hnl : str "\n" = '\n' :: ([] : Str) := rfl
      rw [hnl]
      exact splitOnFirst_none_of_head_notMem '\n' [] name hname
    unfold extract_filename
    simp only [h1, h2]
    rfl

/-- Witness for C8: an unterminated fence and a whitespace-only bash
body both classify as no action with untouched state and empty trace;
an unterminated `filename:` line yields an absent filename. -/
theorem c8_no_action_no_side_effects_witness :
    (classify (str "Try ```bash\nls") = Action.none ∧
     handle_response 5 envInert (str "Try ```bash\nls") ⟨[], 0⟩ = (⟨[], 0⟩, [])) ∧
    (classify (str "```bash\n\n```") = Action.none ∧
     handle_response 5 envInert (str "```bash\n\n```") ⟨[], 0⟩ = (⟨[], 0⟩, [])) ∧
    (extract_code_block (str "filename: " ++ str "foo.py")).1 = none := by
  refine ⟨?_, ?_, ?_⟩
  · exact c8_no_action_no_side_effects.1 5 envInert ⟨[], 0⟩ (str "Try ```bash\nls")
      (by decide) (by decide)
  · exact c8_no_action_no_side_effects.1 5 envInert ⟨[], 0⟩ (str "```bash\n\n```")
      (by decide) (by decide)
  · exact c8_no_action_no_side_effects.2 (str "foo.py") (by decide)

/-- Counterexample for C9: in the web-tool dispatch the single appended
user message holds the URL and the fetched text inside delimiters plus
an instruction referring to "my original question" — it does not contain
the original question's text itself (here `What is the price of
Bitcoin?`), contradicting the claim that the appended message contains
the original question; the reply (even one carrying a bash fence) is
appended and not re-classified (no process runs). -/
theorem c9_web_prompt_lacks_question_counterexample :
    (handle_response 1 envWeb (str "[TOOL_WEB] https://example.com/price") stWeb).1.messages =
      stWeb.messages ++
        [⟨str "user", webContextPrompt (str "https://example.com/price") (str "PAGE TEXT")⟩,
         ⟨str "assistant", str "```bash\nrm -rf /tmp/x\n```"⟩] ∧
    containsSub (str "What is the price of Bitcoin?")
      (webContextPrompt (str "https://example.com/price") (str "PAGE TEXT")) = false ∧
    noRuns (handle_response 1 envWeb (str "[TOOL_WEB] https://example.com/price") stWeb).2 =
      true := by
  decide

/-- C9 amended: for every WebTool dispatch, exactly one new user-role
message is appended containing the URL and the fetched text wrapped in
delimiters together with an instruction to answer the original question
(the question text itself stays earlier in the history); exactly one new
backend call is issued with the full history including that message; the
reply, when present, is appended as an assistant message; and the reply
is not re-classified — the trace holds exactly the fetch and the one
backend call, whatever the reply contains. -/
theorem c9_amended_webtool_dispatch (fuel : Nat) (env : Env) (resp : Str) (st : St)
    (url : Str) (h : tool_match resp = some url) :
    (handle_response (fuel+1) env resp st).1.messages =
      (st.messages ++ [⟨str "user", webContextPrompt url (env.fetch url)⟩]) ++
        (match env.backend (st.messages ++ [⟨str "user", webContextPrompt url (env.fetch url)⟩]) with
         | some r => [⟨str "assistant", r⟩]
         | none => []) ∧
    (handle_response (fuel+1) env resp st).2 =
      [Event.fetchUrl url,
       Event.backendCall (st.messages ++ [⟨str "user", webContextPrompt url (env.fetch url)⟩])] := by
  rw [handle_web fuel env resp st url h]
  rcases hb : env.backend (st.messages ++ [⟨str "user", webContextPrompt url (env.fetch url)⟩])
    with _ | r <;> simp [hb]

/-- Witness for C9 amended: the concrete web-tool scenario — one user
message with delimited content, one backend call with the full history,
the reply appended, trace limited to the fetch and the call. -/
theorem c9_amended_webtool_dispatch_witness :
    (handle_response 1 envWeb (str "[TOOL_WEB] https://example.com/price") stWeb).1.messages =
      stWeb.messages ++
        [⟨str "user", webContextPrompt (str "https://example.com/price") (str "PAGE TEXT")⟩,
         ⟨str "assistant", str "```bash\nrm -rf /tmp/x\n```"⟩] ∧
    (handle_response 1 envWeb (str "[TOOL_WEB] https://example.com/price") stWeb).2 =
      [Event.fetchUrl (str "https://example.com/price"),
       Event.backendCall (stWeb.messages ++
         [⟨str "user", webContextPrompt (str "https://example.com/price") (str "PAGE TEXT")⟩])] := by
  have h := c9_amended_webtool_dispatch 0 envWeb
    (str "[TOOL_WEB] https://example.com/price") stWeb
    (str "https://example.com/price") (by decide)
  refine ⟨?_, ?_⟩
  · rw [h.1]
    decide
  · rw [h.2]
    decide

end Olacli
